import Mathlib

/-!
Verification of the three-tier memory allocator (ThreadCache / CentralCache /
PageCache) against its natural-language specification.  The C++ sources are
shallowly embedded: `size_t` arithmetic is `Nat` with explicit `% 2^64` (or a
64-bit mask) where wrap-around matters, intrusive pointer lists become explicit
next-pointer heaps, and `std::map` becomes a sorted association list.
-/

namespace MemPool

/-! ## Configuration constants (src/memoryPool/inc/Conmmon.h) -/

def ALIGNMENT : Nat := 8
def MAX_BYTES : Nat := 256 * 1024
def FREE_LIST_SIZE : Nat := MAX_BYTES / ALIGNMENT
def SPAN_PAGES : Nat := 8
def PAGE_SIZE : Nat := 4096

/-- Number of bits in `size_t` on the target platform. -/
def WORD : Nat := 64

/-! ## SizeClass (src/memoryPool/inc/Conmmon.h)

`roundUp` is `(bytes + ALIGNMENT - 1) & ~(ALIGNMENT - 1)` on `size_t`;
`~(ALIGNMENT - 1)` as a 64-bit word is `2^64 - ALIGNMENT`, and the bitwise
`&` of the (possibly wrapped) sum with that mask is embedded with `Nat.land`
(the mask discards all bits above bit 63, so no separate `% 2^64` is needed).
-/

def roundUp (bytes : Nat) : Nat :=
  (bytes + (ALIGNMENT - 1)) &&& (2 ^ WORD - ALIGNMENT)

/-- `getIndex`: `bytes = max(bytes, ALIGNMENT); (bytes + ALIGNMENT - 1) / ALIGNMENT - 1`
on `size_t` (the sum is taken mod `2^64`). -/
def getIndex (bytes : Nat) : Nat :=
  ((max bytes ALIGNMENT + (ALIGNMENT - 1)) % 2 ^ WORD) / ALIGNMENT - 1

/-- The specification's description of `round_up`
("smallest multiple of `ALIGNMENT ≥ max(n, ALIGNMENT)`"), written as a formula. -/
def specRoundUp (n : Nat) : Nat :=
  ALIGNMENT * ((max n ALIGNMENT + (ALIGNMENT - 1)) / ALIGNMENT)

/-- Masking a 64-bit value with `2^64 - 8` clears its three low bits. -/
theorem land_mask (x : Nat) (hx : x < 2 ^ 64) :
    x &&& (2 ^ 64 - 8) = 8 * (x / 8) := by
  have hmask : (2 : Nat) ^ 64 - 8 = 2 ^ 3 * (2 ^ 61 - 1) := by norm_num
  have hx8 : 8 * (x / 8) = 2 ^ 3 * (x / 2 ^ 3) := by norm_num
  apply Nat.eq_of_testBit_eq
  intro i
  rw [Nat.testBit_and, hmask, hx8, Nat.testBit_mul_pow_two, Nat.testBit_mul_pow_two]
  rcases lt_or_le i 3 with h3 | h3
  · have hno : ¬ (i ≥ 3) := by omega
    simp [hno]
  · have e1 : (x / 2 ^ 3).testBit (i - 3) = x.testBit i := by
      rw [← Nat.shiftRight_eq_div_pow, Nat.testBit_shiftRight]
      congr 1
      omega
    rw [e1]
    rcases lt_or_le i 64 with h64 | h64
    · have e2 : (2 ^ 61 - 1).testBit (i - 3) = true := by
        rw [Nat.testBit_two_pow_sub_one]
        simp only [decide_eq_true_eq]
        omega
      rw [e2]
      have e3 : decide (i ≥ 3) = true := by simpa using h3
      rw [e3]
      simp [Bool.and_comm]
    · have hxb : x.testBit i = false :=
        Nat.testBit_lt_two_pow (lt_of_lt_of_le hx (Nat.pow_le_pow_right (by norm_num) h64))
      rw [hxb]
      simp

/-- For inputs whose incremented sum does not wrap, `roundUp` is ordinary
round-up-to-a-multiple-of-8. -/
theorem roundUp_eq (n : Nat) (h : n + 7 < 2 ^ 64) :
    roundUp n = 8 * ((n + 7) / 8) := by
  unfold roundUp ALIGNMENT WORD
  exact land_mask (n + 7) h

/-- C5: for every `n ∈ [1, MAX_BYTES]`,
`roundUp(n) = (getIndex(n) + 1) * ALIGNMENT` and `getIndex(n) < FREE_LIST_SIZE`. -/
theorem c5_roundUp_getIndex (n : Nat) (h1 : 1 ≤ n) (h2 : n ≤ MAX_BYTES) :
    roundUp n = (getIndex n + 1) * ALIGNMENT ∧ getIndex n < FREE_LIST_SIZE := by
  have hmb : MAX_BYTES = 262144 := by norm_num [MAX_BYTES]
  rw [hmb] at h2
  have hr : roundUp n = 8 * ((n + 7) / 8) := roundUp_eq n (by omega)
  unfold getIndex FREE_LIST_SIZE MAX_BYTES ALIGNMENT WORD
  rw [hr]
  have hm : (max n 8 + 7) % 2 ^ 64 = max n 8 + 7 := Nat.mod_eq_of_lt (by omega)
  rw [hm]
  constructor
  · rcases le_or_lt n 8 with hc | hc
    · have : max n 8 = 8 := by omega
      rw [this]
      omega
    · have : max n 8 = n := by omega
      rw [this]
      omega
  · rcases le_or_lt n 8 with hc | hc
    · have : max n 8 = 8 := by omega
      rw [this]
      norm_num
    · have : max n 8 = n := by omega
      rw [this]
      omega

/-- Witness for C5 at `n = 100`. -/
theorem c5_witness :
    roundUp 100 = (getIndex 100 + 1) * ALIGNMENT ∧ getIndex 100 < FREE_LIST_SIZE :=
  c5_roundUp_getIndex 100 (by norm_num) (by norm_num [MAX_BYTES])

/-- C8 (counterexample): the claim asserts `roundUp 0 = ALIGNMENT = 8`, but the
source computes `(0 + 7) & ~7 = 0`. -/
theorem c8_counterexample : ¬ (roundUp 0 = ALIGNMENT) := by
  have h : roundUp 0 = 8 * ((0 + 7) / 8) := roundUp_eq 0 (by norm_num)
  rw [h]
  norm_num [ALIGNMENT]

/-- C8 (amended): for every `n` with `1 ≤ n` and no 64-bit wrap of `n + 7`,
`roundUp n` is the smallest multiple of `ALIGNMENT` that is `≥ max(n, ALIGNMENT)`;
at `n = 0` the code instead returns `0`. -/
theorem c8_roundUp_spec (n : Nat) (h1 : 1 ≤ n) (h2 : n + 7 < 2 ^ 64) :
    roundUp n = specRoundUp n := by
  have hr : roundUp n = 8 * ((n + 7) / 8) := roundUp_eq n h2
  unfold specRoundUp ALIGNMENT
  rw [hr]
  rcases le_or_lt n 8 with hc | hc
  · have : max n 8 = 8 := by omega
    rw [this]
    omega
  · have : max n 8 = n := by omega
    rw [this]

/-- Witness for C8 (amended) at `n = 10`. -/
theorem c8_witness : roundUp 10 = specRoundUp 10 :=
  c8_roundUp_spec 10 (by norm_num) (by norm_num)

/-- `specRoundUp n` really is the least multiple of `ALIGNMENT` that is at least
`max n ALIGNMENT` (justifies reading `specRoundUp` as the spec's words). -/
theorem specRoundUp_least (n : Nat) :
    ALIGNMENT ∣ specRoundUp n ∧ max n ALIGNMENT ≤ specRoundUp n ∧
      ∀ m, ALIGNMENT ∣ m → max n ALIGNMENT ≤ m → specRoundUp n ≤ m := by
  unfold specRoundUp ALIGNMENT
  refine ⟨⟨(max n 8 + 7) / 8, rfl⟩, by omega, ?_⟩
  rintro m ⟨c, rfl⟩ hm
  have : max n 8 ≤ 8 * c := hm
  omega

/-! ## ThreadCache (src/inc/ThreadCache.h)

Blocks are raw memory addresses (`Nat`, with `0` standing for `nullptr`).
The intrusive free lists are embedded as an explicit next-pointer heap
`mem : Nat → Nat` (`mem p` is the word stored at the start of block `p`),
one head pointer and one `size_t` length counter per size class. -/

structure TC where
  mem : Nat → Nat
  freeList : Nat → Nat
  freeListSize : Nat → Nat

def updFn (f : Nat → Nat) (k v : Nat) : Nat → Nat :=
  fun j => if j = k then v else f j

/-- Result of `ThreadCache::allocate`: a pooled block, a direct `malloc`
delegation (size above `MAX_BYTES`), or the literal `return 0`. -/
inductive AllocResult where
  | fromPool (p : Nat)
  | fromMalloc (size : Nat)
  | nullPtr
deriving DecidableEq

/-- `ThreadCache::allocate` (ThreadCache.h lines 34-65).  The counter is
decremented (with `size_t` wrap-around) before the head check, and an empty
free list yields `return 0` — the code never calls `fetchFromCentralCache`. -/
def tcAllocate (s : TC) (size : Nat) : AllocResult × TC :=
  let size := if size = 0 then ALIGNMENT else size
  if size > MAX_BYTES then
    (AllocResult.fromMalloc size, s)
  else
    let index := getIndex size
    let s := { s with freeListSize :=
                 updFn s.freeListSize index ((s.freeListSize index + (2 ^ WORD - 1)) % 2 ^ WORD) }
    let ptr := s.freeList index
    if ptr ≠ 0 then
      (AllocResult.fromPool ptr, { s with freeList := updFn s.freeList index (s.mem ptr) })
    else
      (AllocResult.nullPtr, s)

/-- The walk in `ThreadCache::returnThreadCache`: starting at `node`, perform up
to `steps` advances of `splitNode = *splitNode`, stopping with node `0` as soon
as an advance reaches `nullptr`.  Returns the final node and the number of
advances performed. -/
def splitWalk (mem : Nat → Nat) : Nat → Nat → Nat × Nat
  | node, 0 => (node, 0)
  | node, steps + 1 =>
    let nxt := mem node
    if nxt = 0 then (0, 1)
    else
      let r := splitWalk mem nxt steps
      (r.1, r.2 + 1)

/-- `ThreadCache::returnThreadCache` (ThreadCache.h lines 125-211).  Returns
the new state and, when `CentralCache::returnRange(nextNode, FreesizeNum, index)`
is invoked, that call's arguments. -/
def returnThreadCache (s : TC) (ptr size : Nat) : TC × Option (Nat × Nat × Nat) :=
  let index := getIndex size
  let batchNum := s.freeListSize index
  if batchNum ≤ 1 then (s, none)
  else
    let retainNum := max (batchNum / 2) 1
    let freesizeNum := batchNum - retainNum
    let w := splitWalk s.mem ptr (retainNum - 1)
    let splitNode := w.1
    let freesizeNum := if splitNode = 0 then batchNum - w.2 else freesizeNum
    if splitNode ≠ 0 then
      let nextNode := s.mem splitNode
      let s' := { s with mem := updFn s.mem splitNode 0,
                         freeList := updFn s.freeList index nextNode,
                         freeListSize := updFn s.freeListSize index retainNum }
      if nextNode ≠ 0 then (s', some (nextNode, freesizeNum, index))
      else (s', none)
    else (s, none)

/-- `ThreadCache::deallocate` (ThreadCache.h lines 74-95).  The second
component records a `CentralCache::returnRange` call issued by the spill path
(`none` for the `free(ptr)` delegation and for a plain push). -/
def tcDeallocate (s : TC) (ptr size : Nat) : TC × Option (Nat × Nat × Nat) :=
  if size > MAX_BYTES then (s, none)
  else
    let index := getIndex size
    let s := { s with mem := updFn s.mem ptr (s.freeList index),
                      freeList := updFn s.freeList index ptr,
                      freeListSize := updFn s.freeListSize index
                        ((s.freeListSize index + 1) % 2 ^ WORD) }
    if s.freeListSize index > 64 then returnThreadCache s ptr size
    else (s, none)

/-- `ThreadCache::getBatchNum` (ThreadCache.h lines 251-279).  The final line
of the source is `std::max(sizeof(1), std::min(maxNum, baseNum))`; `sizeof(1)`
is `sizeof(int)`, which is `4` on the target platform. -/
def getBatchNum (size : Nat) : Nat :=
  let baseNum : Nat :=
    if size ≤ 32 then 64
    else if size ≤ 64 then 32
    else if size ≤ 128 then 16
    else if size ≤ 256 then 8
    else if size ≤ 512 then 4
    else if size ≤ 1024 then 2
    else 1
  let maxNum := max 1 (4 * 1024 / size)
  max 4 (min maxNum baseNum)

/-- The batch count the specification prescribes: `max(1, min(baseline, 4096/s))`. -/
def specBatchNum (size : Nat) : Nat :=
  let baseNum : Nat :=
    if size ≤ 32 then 64
    else if size ≤ 64 then 32
    else if size ≤ 128 then 16
    else if size ≤ 256 then 8
    else if size ≤ 512 then 4
    else if size ≤ 1024 then 2
    else 1
  max 1 (min (4 * 1024 / size) baseNum)

/-! ## CentralCache (src/src/CentralCache.cpp) -/

/-- The page count `CentralCache::fetchFromPageCache` (CentralCache.cpp lines
155-168) passes to `PageCache::allocateSpan` for a block size `size`: the code
compares the page count `Size_Index` against `SPAN_PAGES * PAGE_SIZE` (a byte
value), not against `SPAN_PAGES`. -/
def fetchFromPageCachePages (size : Nat) : Nat :=
  let sizeIndex := (size + PAGE_SIZE - 1) / PAGE_SIZE
  if sizeIndex ≤ SPAN_PAGES * PAGE_SIZE then SPAN_PAGES else sizeIndex

/-- C4 (code divergence): for the 36 KiB size class (`s = 36864 > 32 KiB`) the
claim demands `⌈s/PAGE_SIZE⌉ = 9` pages, but the unit-mismatched comparison
makes the code request the fixed `SPAN_PAGES = 8`. -/
theorem c4_fetchFromPageCache_bug :
    fetchFromPageCachePages 36864 = 8 ∧ (36864 + PAGE_SIZE - 1) / PAGE_SIZE = 9 := by
  constructor <;> decide

/-- C3 (code divergence): for block size `s = 2048` the claim's formula
`max(1, min(baseline, 4096/s))` yields `1`, but `sizeof(1) = 4` makes the code
return `4`. -/
theorem c3_getBatchNum_bug :
    getBatchNum 2048 = 4 ∧ specBatchNum 2048 = 1 := by
  constructor <;> decide

/-- The all-empty thread cache: every free list null, every counter zero. -/
def tc0 : TC := ⟨fun _ => 0, fun _ => 0, fun _ => 0⟩

/-- C1 (code divergence): `allocate(16)` on a thread cache whose class-1 free
list is empty returns the null pointer directly — the code never consults
`CentralCache` (no `fetchRange` call exists in `allocate`), contrary to the
claim that a batch is pulled and `null` is returned only when `CentralCache`
cannot produce a block. -/
theorem c1_allocate_bug : (tcAllocate tc0 16).1 = AllocResult.nullPtr := by
  decide

/-- A thread cache whose class-1 (16-byte) free list holds the 64 blocks at
addresses `1, 2, …, 64`, chained in that order. -/
def tc1 : TC :=
  ⟨fun i => if 1 ≤ i ∧ i < 64 then i + 1 else 0,
   fun idx => if idx = 1 then 1 else 0,
   fun idx => if idx = 1 then 64 else 0⟩

/-- C2 (code divergence): pushing block `100` onto the full class-1 list makes
`N = 65`.  The claim demands that `⌈65/2⌉ = 33` blocks stay on the thread list
and `32` are shipped.  The code instead ships the chain headed by block `32`
with count `FreesizeNum = 33`, and simultaneously sets the thread free-list
head to that same block `32` (with its counter at `RetainNum = 32`): the 32
blocks meant to be retained are no longer reachable from the list head. -/
theorem c2_spill_bug :
    (tcDeallocate tc1 100 16).2 = some (32, 33, 1) ∧
    (tcDeallocate tc1 100 16).1.freeList 1 = 32 ∧
    (tcDeallocate tc1 100 16).1.freeListSize 1 = 32 := by
  refine ⟨?_, ?_, ?_⟩ <;> decide

/-- Normalising a zero request to `ALIGNMENT` does not change the class index. -/
theorem getIndex_norm (m : Nat) : getIndex (if m = 0 then ALIGNMENT else m) = getIndex m := by
  split
  · subst m
    decide
  · rfl

theorem updFn_self (f : Nat → Nat) (k v : Nat) : updFn f k v k = v := by
  simp [updFn]

/-- A `deallocate` that stays at or below the 64-block threshold is a plain
push: the block becomes the class head and nothing is shipped to CentralCache. -/
theorem tcDeallocate_push (s : TC) (ptr size : Nat) (h : ¬ size > MAX_BYTES)
    (h64 : s.freeListSize (getIndex size) + 1 ≤ 64) :
    tcDeallocate s ptr size =
      ({ mem := updFn s.mem ptr (s.freeList (getIndex size)),
         freeList := updFn s.freeList (getIndex size) ptr,
         freeListSize := updFn s.freeListSize (getIndex size)
           (s.freeListSize (getIndex size) + 1) }, none) := by
  have h2w : (2 : Nat) ^ WORD = 18446744073709551616 := by norm_num [WORD]
  have hc : (s.freeListSize (getIndex size) + 1) % 2 ^ WORD =
      s.freeListSize (getIndex size) + 1 := Nat.mod_eq_of_lt (by omega)
  unfold tcDeallocate
  rw [if_neg h]
  simp only [updFn_self, hc, updFn]
  rw [if_neg (by simp; omega)]

theorem tcDeallocate_push_fst (s : TC) (ptr size : Nat) (h : size ≤ MAX_BYTES)
    (h64 : s.freeListSize (getIndex size) + 1 ≤ 64) :
    (tcDeallocate s ptr size).1 =
      { mem := updFn s.mem ptr (s.freeList (getIndex size)),
        freeList := updFn s.freeList (getIndex size) ptr,
        freeListSize := updFn s.freeListSize (getIndex size)
          (s.freeListSize (getIndex size) + 1) } := by
  rw [tcDeallocate_push s ptr size (by omega) h64]

/-- An `allocate` whose class free list is non-empty pops and returns the head. -/
theorem tcAllocate_pop (s : TC) (m : Nat) (hm : m ≤ MAX_BYTES)
    (hne : s.freeList (getIndex m) ≠ 0) :
    (tcAllocate s m).1 = AllocResult.fromPool (s.freeList (getIndex m)) := by
  have hsz : ¬ ((if m = 0 then ALIGNMENT else m) > MAX_BYTES) := by
    split
    · norm_num [ALIGNMENT, MAX_BYTES]
    · omega
  simp only [tcAllocate, getIndex_norm, if_neg hsz]
  simp [hne]

/-- C9: the thread-local free list is LIFO.  Freeing `p1` then `p2` into the
same class (no spill: the class counter starts at most `62`, so it never
crosses the 64-block threshold) makes the next same-class `allocate` return
`p2`, the most recently freed block. -/
theorem c9_lifo (s : TC) (p1 p2 n m : Nat)
    (hn : n ≤ MAX_BYTES) (hm : m ≤ MAX_BYTES)
    (hidx : getIndex m = getIndex n) (hp2 : p2 ≠ 0)
    (hcnt : s.freeListSize (getIndex n) ≤ 62) :
    (tcAllocate (tcDeallocate (tcDeallocate s p1 n).1 p2 n).1 m).1 =
      AllocResult.fromPool p2 := by
  rw [tcDeallocate_push_fst s p1 n hn (by omega)]
  rw [tcDeallocate_push_fst _ p2 n hn (by simp [updFn]; omega)]
  rw [tcAllocate_pop _ m hm (by rw [hidx]; simp [updFn, hp2])]
  rw [hidx]
  simp [updFn]

/-- Witness for C9: on the empty thread cache, free blocks `5` then `9` at
size 16, then allocate 16 bytes; the result is block `9`. -/
theorem c9_witness :
    (tcAllocate (tcDeallocate (tcDeallocate tc0 5 16).1 9 16).1 16).1 =
      AllocResult.fromPool 9 :=
  c9_lifo tc0 5 9 16 16 (by norm_num [MAX_BYTES]) (by norm_num [MAX_BYTES])
    rfl (by norm_num) (by norm_num [tc0])

/-! ## PageCache (src/memoryPool/inc/PageCache.h) -/

/-- The `Span` record of PageCache.h: base address, page count, and the
intrusive `next` pointer (a span id, `0` for `nullptr`). -/
structure SpanRec where
  pageAddr : Nat
  sizePages : Nat
  next : Nat
deriving DecidableEq

/-- `PageCache` state.  Span objects created with `new Span` live in `heap`
(ids are handed out by `nextId`, starting at 1; id `0` is `nullptr`).
`freeSpans` and `spanMap` model the two `std::map`s as association lists
sorted strictly by key; `osNext` models `mmap`'s supply of fresh pages. -/
structure PCState where
  heap : Nat → SpanRec
  nextId : Nat
  freeSpans : List (Nat × Nat)
  spanMap : List (Nat × Nat)
  osNext : Nat

def hUpdate (h : Nat → SpanRec) (k : Nat) (r : SpanRec) : Nat → SpanRec :=
  fun j => if j = k then r else h j

def mapFind : List (Nat × Nat) → Nat → Option Nat
  | [], _ => none
  | (k, v) :: t, q => if q = k then some v else mapFind t q

def mapInsert : List (Nat × Nat) → Nat → Nat → List (Nat × Nat)
  | [], k, v => [(k, v)]
  | (k', v') :: t, k, v =>
    if k < k' then (k, v) :: (k', v') :: t
    else if k = k' then (k, v) :: t
    else (k', v') :: mapInsert t k v

def mapErase : List (Nat × Nat) → Nat → List (Nat × Nat)
  | [], _ => []
  | (k', v') :: t, k => if k = k' then t else (k', v') :: mapErase t k

/-- `std::map::lower_bound`: the first entry (in ascending key order) whose
key is `≥ k`. -/
def lowerBound : List (Nat × Nat) → Nat → Option (Nat × Nat)
  | [], _ => none
  | (k', v') :: t, k => if k ≤ k' then some (k', v') else lowerBound t k

/-- Keys strictly ascending, as in a `std::map` iteration. -/
def mapSorted (l : List (Nat × Nat)) : Prop :=
  List.Pairwise (fun a b => a.1 < b.1) l

theorem mapFind_insert_self (l : List (Nat × Nat)) (k v : Nat) :
    mapFind (mapInsert l k v) k = some v := by
  induction l with
  | nil => simp [mapInsert, mapFind]
  | cons e t ih =>
    obtain ⟨k', v'⟩ := e
    by_cases h1 : k < k'
    · simp [mapInsert, h1, mapFind]
    · by_cases h2 : k = k'
      · simp [mapInsert, h1, h2, mapFind]
      · have : ¬ k = k' := h2
        simp [mapInsert, h1, h2, mapFind, this, ih]

theorem mapFind_insert_ne (l : List (Nat × Nat)) (k v q : Nat) (h : q ≠ k) :
    mapFind (mapInsert l k v) q = mapFind l q := by
  induction l with
  | nil => simp [mapInsert, mapFind, h]
  | cons e t ih =>
    obtain ⟨k', v'⟩ := e
    by_cases h1 : k < k'
    · simp [mapInsert, h1, mapFind, h]
    · by_cases h2 : k = k'
      · subst h2
        simp [mapInsert, h1, mapFind, h]
      · simp [mapInsert, h1, h2, mapFind, ih]

theorem mapFind_erase_ne (l : List (Nat × Nat)) (k q : Nat) (h : q ≠ k) :
    mapFind (mapErase l k) q = mapFind l q := by
  induction l with
  | nil => simp [mapErase]
  | cons e t ih =>
    obtain ⟨k', v'⟩ := e
    by_cases h1 : k = k'
    · subst h1
      simp [mapErase, mapFind, h]
    · simp [mapErase, h1, mapFind, ih]

theorem mapFind_eq_none (l : List (Nat × Nat)) (k : Nat) (h : ∀ e ∈ l, e.1 ≠ k) :
    mapFind l k = none := by
  induction l with
  | nil => rfl
  | cons e t ih =>
    obtain ⟨k', v'⟩ := e
    have hk : k' ≠ k := h (k', v') (by simp)
    simp only [mapFind]
    rw [if_neg (by omega)]
    exact ih (fun e he => h e (by simp [he]))

theorem mapFind_erase_self (l : List (Nat × Nat)) (k : Nat) (hs : mapSorted l) :
    mapFind (mapErase l k) k = none := by
  induction l with
  | nil => rfl
  | cons e t ih =>
    obtain ⟨k', v'⟩ := e
    unfold mapSorted at hs
    rw [List.pairwise_cons] at hs
    by_cases h1 : k = k'
    · subst h1
      simp only [mapErase, if_pos rfl]
      exact mapFind_eq_none t k (fun e he => by have := hs.1 e he; omega)
    · simp only [mapErase, if_neg h1, mapFind]
      exact ih hs.2

theorem lowerBound_spec (l : List (Nat × Nat)) (k : Nat) (hs : mapSorted l)
    (hex : ∃ e ∈ l, k ≤ e.1) :
    ∃ c v, lowerBound l k = some (c, v) ∧ (c, v) ∈ l ∧ k ≤ c ∧
      ∀ e ∈ l, k ≤ e.1 → c ≤ e.1 := by
  induction l with
  | nil => simp at hex
  | cons e t ih =>
    obtain ⟨k', v'⟩ := e
    unfold mapSorted at hs
    rw [List.pairwise_cons] at hs
    by_cases h1 : k ≤ k'
    · refine ⟨k', v', by simp [lowerBound, h1], by simp, h1, ?_⟩
      rintro e he -
      rcases List.mem_cons.mp he with rfl | he
      · omega
      · have := hs.1 e he
        omega
    · have hex' : ∃ e ∈ t, k ≤ e.1 := by
        obtain ⟨e, he, hke⟩ := hex
        rcases List.mem_cons.mp he with rfl | he
        · simp at hke
          omega
        · exact ⟨e, he, hke⟩
      obtain ⟨c, v, hlb, hmem, hkc, hmin⟩ := ih hs.2 hex'
      refine ⟨c, v, by simp [lowerBound, h1, hlb], by simp [hmem], hkc, ?_⟩
      rintro e he hke
      rcases List.mem_cons.mp he with rfl | he
      · simp at hke
        omega
      · exact hmin e he hke

/-- `PageCache::allocateSpan` (PageCache.h lines 40-105).  Returns the base
address and the new state.  The `mmap` branch is modelled by an always-fresh
page supply at `osNext * PAGE_SIZE`. -/
def allocateSpan (s : PCState) (numPages : Nat) : Nat × PCState :=
  match lowerBound s.freeSpans numPages with
  | some (key, spanId) =>
    let span := s.heap spanId
    let fs1 :=
      if span.next ≠ 0 then mapInsert s.freeSpans key span.next
      else mapErase s.freeSpans key
    if numPages < span.sizePages then
      let newId := s.nextId
      let newAddr := span.pageAddr + numPages * PAGE_SIZE
      let newSize := span.sizePages - numPages
      let oldHead := (mapFind fs1 newSize).getD 0
      let heap1 := hUpdate s.heap newId ⟨newAddr, newSize, oldHead⟩
      let fs2 := mapInsert fs1 newSize newId
      let heap2 := hUpdate heap1 spanId { heap1 spanId with sizePages := numPages }
      (span.pageAddr,
        { s with heap := heap2, nextId := s.nextId + 1, freeSpans := fs2,
                 spanMap := mapInsert s.spanMap span.pageAddr spanId })
    else
      (span.pageAddr,
        { s with freeSpans := fs1,
                 spanMap := mapInsert s.spanMap span.pageAddr spanId })
  | none =>
    let memory := s.osNext * PAGE_SIZE
    let newId := s.nextId
    let heap1 := hUpdate s.heap newId ⟨memory, numPages, 0⟩
    (memory,
      { s with heap := heap1, nextId := s.nextId + 1,
               spanMap := mapInsert s.spanMap memory newId,
               osNext := s.osNext + numPages })

/-- The `prev` walk of `PageCache::deallocateSpan`: search the free list
starting at `prev` for the node whose `next` is `target`; on success unlink
`target`.  `fuel` bounds the walk (any genuine, acyclic free list is shorter
than the number of spans ever created). -/
def removeTarget (heap : Nat → SpanRec) (prev target : Nat) : Nat → Bool × (Nat → SpanRec)
  | 0 => (false, heap)
  | fuel + 1 =>
    let nxt := (heap prev).next
    if nxt = 0 then (false, heap)
    else if nxt = target then
      (true, hUpdate heap prev { heap prev with next := (heap target).next })
    else removeTarget heap nxt target fuel

/-- `PageCache::deallocateSpan` (PageCache.h lines 118-181). -/
def deallocateSpan (s : PCState) (ptr numPages : Nat) : PCState :=
  match mapFind s.spanMap ptr with
  | none => s
  | some spanId =>
    let nextAddr := ptr + numPages * PAGE_SIZE
    let step1 : PCState :=
      match mapFind s.spanMap nextAddr with
      | none => s
      | some nextId =>
        let nsz := (s.heap nextId).sizePages
        let curHead := (mapFind s.freeSpans nsz).getD 0
        let fs0 := mapInsert s.freeSpans nsz curHead
        if curHead = nextId then
          let fs1 := mapInsert fs0 nsz (s.heap nextId).next
          let heap1 := hUpdate s.heap spanId
            { s.heap spanId with
                sizePages := (s.heap spanId).sizePages + (s.heap nextId).sizePages }
          { s with freeSpans := fs1, heap := heap1,
                   spanMap := mapErase s.spanMap nextAddr }
        else if curHead ≠ 0 then
          match removeTarget s.heap curHead nextId s.nextId with
          | (true, heap1) =>
            let heap2 := hUpdate heap1 spanId
              { heap1 spanId with
                  sizePages := (heap1 spanId).sizePages + (heap1 nextId).sizePages }
            { s with freeSpans := fs0, heap := heap2,
                     spanMap := mapErase s.spanMap nextAddr }
          | (false, heap1) => { s with freeSpans := fs0, heap := heap1 }
        else { s with freeSpans := fs0 }
    let span2 := step1.heap spanId
    let oldList := (mapFind step1.freeSpans span2.sizePages).getD 0
    { step1 with
        heap := hUpdate step1.heap spanId { span2 with next := oldList },
        freeSpans := mapInsert step1.freeSpans span2.sizePages spanId }

/-- C10: a `deallocateSpan` whose pointer has no `SpanMap_` entry is a no-op. -/
theorem c10_deallocateSpan_unknown (s : PCState) (ptr k : Nat)
    (h : mapFind s.spanMap ptr = none) : deallocateSpan s ptr k = s := by
  unfold deallocateSpan
  rw [h]

/-- Well-formedness of the free-span map: keys strictly ascending, every list
head a genuine non-null span whose `sizePages` equals its key. -/
def WFfree (s : PCState) : Prop :=
  mapSorted s.freeSpans ∧
  ∀ e ∈ s.freeSpans, e.2 ≠ 0 ∧ e.2 < s.nextId ∧ (s.heap e.2).sizePages = e.1

/-- C6: when `free_spans` holds an entry of page count `≥ k`, `allocateSpan k`
takes the smallest such span (`lower_bound`), unlinks its list head, splits off
a remainder span of `orig − k` pages at `base + k·PAGE_SIZE` into
`free_spans[orig − k]` whenever `orig > k`, records the taken `k`-page span in
`SpanMap_` under its base address, and returns that base address. -/
theorem c6_allocateSpan_bestFit (s : PCState) (k : Nat) (hwf : WFfree s) (hk : 0 < k)
    (hex : ∃ e ∈ s.freeSpans, k ≤ e.1) :
    ∃ c h, lowerBound s.freeSpans k = some (c, h) ∧
      (c, h) ∈ s.freeSpans ∧ k ≤ c ∧ (∀ e ∈ s.freeSpans, k ≤ e.1 → c ≤ e.1) ∧
      (allocateSpan s k).1 = (s.heap h).pageAddr ∧
      mapFind (allocateSpan s k).2.spanMap ((s.heap h).pageAddr) = some h ∧
      ((allocateSpan s k).2.heap h).sizePages = k ∧
      mapFind (allocateSpan s k).2.freeSpans c =
        (if (s.heap h).next ≠ 0 then some (s.heap h).next else none) ∧
      (k < c →
        mapFind (allocateSpan s k).2.freeSpans (c - k) = some s.nextId ∧
        ((allocateSpan s k).2.heap s.nextId).pageAddr =
          (s.heap h).pageAddr + k * PAGE_SIZE ∧
        ((allocateSpan s k).2.heap s.nextId).sizePages = c - k) := by
  obtain ⟨hsort, hall⟩ := hwf
  obtain ⟨c, h, hlb, hin, hkc, hmin⟩ := lowerBound_spec s.freeSpans k hsort hex
  obtain ⟨hh0, hhlt, hhsz⟩ := hall (c, h) hin
  refine ⟨c, h, hlb, hin, hkc, hmin, ?_⟩
  simp only [allocateSpan, hlb]
  rw [hhsz]
  by_cases hsplit : k < c
  · rw [if_pos hsplit]
    refine ⟨rfl, mapFind_insert_self _ _ _, ?_, ?_, ?_⟩
    · simp [hUpdate]
    · rw [mapFind_insert_ne _ _ _ c (by omega)]
      by_cases hnext : (s.heap h).next ≠ 0
      · rw [if_pos hnext, if_pos hnext]
        exact mapFind_insert_self _ _ _
      · rw [if_neg hnext, if_neg hnext]
        exact mapFind_erase_self _ _ hsort
    · intro _
      have hne1 : h ≠ s.nextId := by omega
      have hne2 : s.nextId ≠ h := by omega
      refine ⟨mapFind_insert_self _ _ _, ?_, ?_⟩ <;> simp [hUpdate, hne1, hne2]
  · rw [if_neg hsplit]
    have hck : c = k := by omega
    refine ⟨rfl, mapFind_insert_self _ _ _, by rw [hhsz, hck], ?_, by omega⟩
    by_cases hnext : (s.heap h).next ≠ 0
    · rw [if_pos hnext, if_pos hnext]
      exact mapFind_insert_self _ _ _
    · rw [if_neg hnext, if_neg hnext]
      exact mapFind_erase_self _ _ hsort

/-- The empty page cache: no spans, ids from 1, OS pages from address `4096`. -/
def pc0 : PCState := ⟨fun _ => ⟨0, 0, 0⟩, 1, [], [], 1⟩

/-- C7 (counterexample): allocate one page from the OS (base `4096`), then
free it.  The span now heads `free_spans[1]`, yet its base is still a key of
`SpanMap_` — `deallocateSpan` never erases the freed span from the live map. -/
theorem c7_counterexample :
    mapFind (deallocateSpan (allocateSpan pc0 1).2 4096 1).freeSpans 1 = some 1 ∧
    mapFind (deallocateSpan (allocateSpan pc0 1).2 4096 1).spanMap 4096 = some 1 ∧
    ((deallocateSpan (allocateSpan pc0 1).2 4096 1).heap 1).pageAddr = 4096 := by
  refine ⟨?_, ?_, ?_⟩ <;> decide

theorem hUpdate_self (h : Nat → SpanRec) (k : Nat) (r : SpanRec) :
    hUpdate h k r k = r := by
  simp [hUpdate]

/-- C7 (amended): a span freed with `deallocateSpan` ends up at the head of
its `free_spans` list while its `SpanMap_` entry remains; only a span consumed
by forward coalescing leaves `SpanMap_`.  (The separation hypothesis `_hsep`
marks the domain on which the embedding is faithful: if the forward-coalesced
successor were the freed span itself, the C++ would free and then reuse the
same `Span` object.) -/
theorem c7_freed_span_stays_live (s : PCState) (ptr k spanId : Nat) (hk : 0 < k)
    (hfind : mapFind s.spanMap ptr = some spanId)
    (_hsep : mapFind s.spanMap (ptr + k * PAGE_SIZE) ≠ some spanId) :
    mapFind (deallocateSpan s ptr k).spanMap ptr = some spanId ∧
    mapFind (deallocateSpan s ptr k).freeSpans
      (((deallocateSpan s ptr k).heap spanId).sizePages) = some spanId := by
  have hps : PAGE_SIZE = 4096 := rfl
  have hne : ptr ≠ ptr + k * PAGE_SIZE := by rw [hps]; omega
  simp only [deallocateSpan, hfind]
  refine ⟨?_, ?_⟩
  · split
    · exact hfind
    · split
      · rw [mapFind_erase_ne _ _ _ hne]
        exact hfind
      · split
        · split
          · rw [mapFind_erase_ne _ _ _ hne]
            exact hfind
          · exact hfind
        · exact hfind
  · simp only [hUpdate_self]
    exact mapFind_insert_self _ _ _

/-- A page cache holding one free 3-page span (id 1, base `8192`) on
`free_spans[3]`. -/
def pcW : PCState :=
  ⟨fun i => if i = 1 then ⟨8192, 3, 0⟩ else ⟨0, 0, 0⟩, 2, [(3, 1)], [], 100⟩

theorem pcW_wf : WFfree pcW := by
  refine ⟨?_, ?_⟩
  · unfold mapSorted
    decide
  · decide

/-- Witness for C6: `allocateSpan 2` on `pcW` takes the 3-page span at `8192`,
records it live as 2 pages, and leaves a 1-page remainder span (id 2) at
`free_spans[1]`. -/
theorem c6_witness :
    ∃ c h, lowerBound pcW.freeSpans 2 = some (c, h) ∧
      (c, h) ∈ pcW.freeSpans ∧ 2 ≤ c ∧ (∀ e ∈ pcW.freeSpans, 2 ≤ e.1 → c ≤ e.1) ∧
      (allocateSpan pcW 2).1 = (pcW.heap h).pageAddr ∧
      mapFind (allocateSpan pcW 2).2.spanMap ((pcW.heap h).pageAddr) = some h ∧
      ((allocateSpan pcW 2).2.heap h).sizePages = 2 ∧
      mapFind (allocateSpan pcW 2).2.freeSpans c =
        (if (pcW.heap h).next ≠ 0 then some (pcW.heap h).next else none) ∧
      (2 < c →
        mapFind (allocateSpan pcW 2).2.freeSpans (c - 2) = some pcW.nextId ∧
        ((allocateSpan pcW 2).2.heap pcW.nextId).pageAddr =
          (pcW.heap h).pageAddr + 2 * PAGE_SIZE ∧
        ((allocateSpan pcW 2).2.heap pcW.nextId).sizePages = c - 2) :=
  c6_allocateSpan_bestFit pcW 2 pcW_wf (by norm_num) ⟨(3, 1), by decide, by decide⟩

/-- A page cache with one live 1-page span (id 1) at base `4096`. -/
def pcW7 : PCState :=
  ⟨fun i => if i = 1 then ⟨4096, 1, 0⟩ else ⟨0, 0, 0⟩, 2, [], [(4096, 1)], 2⟩

/-- Witness for C7 (amended): freeing the live span at `4096` leaves its
`SpanMap_` entry in place while putting it at the head of `free_spans[1]`. -/
theorem c7_witness :
    mapFind (deallocateSpan pcW7 4096 1).spanMap 4096 = some 1 ∧
    mapFind (deallocateSpan pcW7 4096 1).freeSpans
      (((deallocateSpan pcW7 4096 1).heap 1).sizePages) = some 1 :=
  c7_freed_span_stays_live pcW7 4096 1 1 (by norm_num) (by decide) (by decide)

/-- Witness for C10: `deallocateSpan` on the empty page cache (no live spans)
leaves the state untouched. -/
theorem c10_witness : deallocateSpan pc0 4096 1 = pc0 :=
  c10_deallocateSpan_unknown pc0 4096 1 (by decide)

end MemPool
